import Mathlib

/-!
Verification of the customer-feedback pipeline of this repository
(`src/pipeline/customer_feedback_pipeline.py`, `src/utils/metrics.py`,
`src/utils/preprocessor.py`, `src/utils/generate_sample.py`).

Tabular data is modelled shallowly: a cell is null (pandas NaN), a
string, an integer, or an exact rational standing for a Python float;
a row is an association list from column names to cells; a data frame
is a column list together with a row list.  The sentiment scorer, the
topic extractor and the pipeline-level text preprocessor live in
modules (`src/pipeline/sentiment.py`, `src/pipeline/text_analysis.py`,
`src/pipeline/preprocessing.py`) that are not part of the repository
sources; the pipeline embedding therefore takes them as function
parameters, exactly as the Python class holds them as collaborators.
-/

namespace FeedbackPipeline

/-- A pandas cell value: NaN, a string, an integer, or a float
(modelled as an exact rational). -/
inductive Cell where
  | null : Cell
  | str : String → Cell
  | int : Int → Cell
  | rat : ℚ → Cell
deriving DecidableEq

/-- A data-frame row: association list from column names to cells. -/
abbrev Row : Type := List (String × Cell)

/-- A data frame: ordered column names and the list of rows. -/
structure DataFrame where
  cols : List String
  rows : List Row
deriving DecidableEq

/-- Reading a cell of a row by column name (first match); an absent
key reads as null, matching a pandas missing value. -/
def getCell : Row → String → Cell
  | [], _ => Cell.null
  | p :: r, c => if p.1 = c then p.2 else getCell r c

/-- Writing one cell of a row: replace the value in place when the
column is already a key of the row, append it otherwise. -/
def setRowCell (r : Row) (c : String) (v : Cell) : Row :=
  if r.any (fun p => p.1 == c) then
    r.map (fun p => if p.1 == c then (c, v) else p)
  else
    r ++ [(c, v)]

/-- Column assignment `df[c] = f(row)` (pandas apply along rows): the
new value of each row is computed from the original row. -/
def setCol (df : DataFrame) (c : String) (f : Row → Cell) : DataFrame :=
  { cols := if c ∈ df.cols then df.cols else df.cols ++ [c],
    rows := df.rows.map (fun r => setRowCell r c (f r)) }

/-- Number of rows of `df` whose cell in column `c` is not null,
i.e. pandas `df[c].notna().sum()`. -/
def countNonNull (df : DataFrame) (c : String) : Nat :=
  (df.rows.filter (fun r => !(getCell r c == Cell.null))).length

/-- Embedding of `evaluate_sentiment_coverage` from
`src/utils/metrics.py`: fraction of rows with a non-null score, `0`
when the score column is absent or the frame is empty.  Python float
division is modelled by exact rational division. -/
def evaluate_sentiment_coverage (df : DataFrame) (score_col : String) : ℚ :=
  if score_col ∈ df.cols then
    if df.rows.length = 0 then 0
    else (countNonNull df score_col : ℚ) / (df.rows.length : ℚ)
  else 0

/-! ### Text cleaning (`ReviewPreprocessor.clean_text.clean_review_text`,
`src/utils/preprocessor.py`) -/

/-- The ASCII fragment of Python's regex class `\s` (space, tab,
newline, carriage return, vertical tab, form feed). -/
def isWs (c : Char) : Bool :=
  c == ' ' || c == '\t' || c == '\n' || c == '\r' ||
  c == Char.ofNat 11 || c == Char.ofNat 12

/-- Worker for `re.sub(r'\s+', ' ', text)`: the flag records whether
the previous character belonged to a whitespace run already replaced
by a single space. -/
def squeezeAux : Bool → List Char → List Char
  | _, [] => []
  | inRun, c :: rest =>
    if isWs c then
      if inRun then squeezeAux true rest
      else ' ' :: squeezeAux true rest
    else
      c :: squeezeAux false rest

/-- Embedding of `re.sub(r'\s+', ' ', text)`: every maximal run of
whitespace becomes one space. -/
def squeeze (l : List Char) : List Char := squeezeAux false l

/-- Removal of trailing whitespace: a character is kept unless it is
whitespace and everything after it was dropped. -/
def dropTrailWs : List Char → List Char
  | [] => []
  | c :: r =>
    match dropTrailWs r with
    | [] => if isWs c then [] else [c]
    | r' => c :: r'

/-- Embedding of Python `str.strip()`: drop leading and trailing
whitespace. -/
def pyStrip (l : List Char) : List Char := dropTrailWs (l.dropWhile isWs)

/-- The two cleaning steps of `clean_review_text` in source order:
whitespace squeezing, then stripping. -/
def cleanCore (l : List Char) : List Char := pyStrip (squeeze l)

/-- Embedding of the inner `clean_review_text` of
`ReviewPreprocessor.clean_text` (`src/utils/preprocessor.py`): NaN or
the empty string maps to the empty string; otherwise whitespace runs
are collapsed to single spaces and the result is trimmed.  The
function performs no lower-casing, URL removal, or punctuation
stripping. -/
def clean_review_text : Option String → String
  | none => ""
  | some s => if s = "" then "" else String.mk (cleanCore s.data)

/-- Every whitespace character of the list is a plain space — the
shape `re.sub(r'\s+', ' ', ...)` leaves behind. -/
def allSp (l : List Char) : Prop := ∀ c ∈ l, isWs c = true → c = ' '

/-- No two adjacent whitespace characters. -/
def noTwo (a b : Char) : Prop := ¬(isWs a = true ∧ isWs b = true)

/-! ### Sample data (`generate_sample_reviews`, `src/utils/generate_sample.py`) -/

/-- One draw of the random choices `generate_sample_reviews` makes for
a row: the uuid string, the indices into the text and bank pools, the
rating draw, and the day offset. -/
structure SampleChoice where
  idStr : String
  textIdx : Nat
  ratingIdx : Nat
  bankIdx : Nat
  dayOff : Nat

/-- The ten sample review texts of `generate_sample_reviews`. -/
def sample_texts : List String :=
  ["App crashes when sending money",
   "Login failed multiple times",
   "Very fast transfers and easy to use",
   "Slow UI and occasional timeouts",
   "Customer support was helpful",
   "Payment failed but refunded later",
   "Great app, love the design",
   "Bug when uploading ID documents",
   "Fingerprint login not working",
   "Cannot link bank account"]

/-- The three bank names of `generate_sample_reviews`. -/
def sample_banks : List String :=
  ["Commercial Bank of Ethiopia", "Bank of Abyssinia", "Dashen Bank"]

/-- One synthetic review row; `np.random.choice` over a pool is
modelled by an index reduced modulo the pool size, and the random date
by an integer day offset below 365. -/
def sampleRow (ch : SampleChoice) : Row :=
  [("review_id", Cell.str ch.idStr),
   ("review_text", Cell.str (sample_texts.getD (ch.textIdx % 10) "")),
   ("rating", Cell.int ((1 : Int) + (ch.ratingIdx % 5 : Nat))),
   ("date", Cell.int (ch.dayOff % 365 : Nat)),
   ("bank_name", Cell.str (sample_banks.getD (ch.bankIdx % 3) ""))]

/-- Embedding of `generate_sample_reviews(n)`: `n` rows with the five
fixed columns, the random generator passed in as `pick`. -/
def generate_sample_reviews (n : Nat) (pick : Nat → SampleChoice) : DataFrame :=
  { cols := ["review_id", "review_text", "rating", "date", "bank_name"],
    rows := (List.range n).map (fun i => sampleRow (pick i)) }

/-! ### The pipeline class (`src/pipeline/customer_feedback_pipeline.py`) -/

/-- Per-group theme mapping: group key cell to the ordered list of
themes, each an ordered keyword list (`self.themes`). -/
abbrev ThemeMap : Type := List (Cell × List (List String))

/-- The mutable attributes of `CustomerFeedbackPipeline` that the
claims touch: the loaded frame, the processed frame, the theme
mapping, and the configured `n_themes`. -/
structure PipelineState where
  df : DataFrame
  df_processed : DataFrame
  themes : ThemeMap
  n_themes : Int
deriving DecidableEq

/-- Appending an all-null column, i.e. `df[c] = None` on a frame that
lacks column `c`. -/
def addNullCol (df : DataFrame) (c : String) : DataFrame :=
  { cols := df.cols ++ [c],
    rows := df.rows.map (fun r => r ++ [(c, Cell.null)]) }

/-- The column-presence loop of `load_data`: each required column that
is absent is added as an all-null column. -/
def ensureCols (df : DataFrame) : List String → DataFrame
  | [] => df
  | c :: cs => ensureCols (if c ∈ df.cols then df else addNullCol df c) cs

/-- Embedding of `CustomerFeedbackPipeline.load_data`: read the
configured file when it exists, otherwise generate 500 synthetic
reviews; then ensure the three required columns exist. -/
def load_data (fileExists : Bool) (csv : DataFrame) (pick : Nat → SampleChoice)
    (st : PipelineState) : PipelineState × DataFrame :=
  let df0 := if fileExists then csv else generate_sample_reviews 500 pick
  let df1 := ensureCols df0 ["review_text", "rating", "bank_name"]
  ({ st with df := df1 }, df1)

/-- Python `str()` on the cell values the fallback branch of
`compute_sentiment` can meet after `fillna('')`. -/
def pyStr : Cell → String
  | Cell.null => ""
  | Cell.str s => s
  | Cell.int n => toString n
  | Cell.rat q => toString q

/-- The preprocessing step of `compute_sentiment`: the external
`preprocess_dataframe` (module `src/pipeline/preprocessing.py`, not in
the repository sources, passed as parameter `preproc`), with the
source's exception fallback that copies `review_text` coerced to
strings into `review_text_preprocessed`. -/
def preprocStep (preproc : DataFrame → Option DataFrame) (df : DataFrame) : DataFrame :=
  match preproc df with
  | some d => d
  | none => setCol df "review_text_preprocessed" (fun r => Cell.str (pyStr (getCell r "review_text")))

/-- The percent formatting `f"{coverage:.2%}"` of CPython, on the
exact rational: the value times 100, rounded to two decimal places,
with a trailing percent sign. -/
def formatPct2 (q : ℚ) : String :=
  let n : Int := round (q * 10000)
  let fp := (n % 100).toNat
  toString (n / 100) ++ "." ++ (if fp < 10 then "0" ++ toString fp else toString fp) ++ "%"

/-- Embedding of `CustomerFeedbackPipeline.compute_sentiment`:
preprocess, score (the external `batch_sentiment` of
`src/pipeline/sentiment.py`, not in the repository sources, passed as
parameter `scorerB`), then assert that sentiment coverage is at least
0.9, re-raising the assertion as the run's hard failure. -/
def compute_sentiment (preproc : DataFrame → Option DataFrame)
    (scorerB : DataFrame → DataFrame) (st : PipelineState) :
    Except String (PipelineState × DataFrame) :=
  let df1 := preprocStep preproc st.df
  let dfp := scorerB df1
  let cov := evaluate_sentiment_coverage dfp "sentiment_score"
  if (9 : ℚ)/10 ≤ cov then
    Except.ok ({ st with df := df1, df_processed := dfp }, dfp)
  else
    Except.error ("Sentiment coverage below required threshold: " ++ formatPct2 cov)

/-- The text column selection of `extract_themes` and `save_models`:
prefer the preprocessed column when it exists. -/
def textColOf (df : DataFrame) : String :=
  if "review_text_preprocessed" ∈ df.cols then "review_text_preprocessed" else "review_text"

/-- The resolution `n_themes = n_themes or self.n_themes` of
`extract_themes`: a missing argument or the falsy `0` yields the
configured default; any other integer, negative ones included, is used
as supplied. -/
def resolveNThemes (arg : Option Int) (dflt : Int) : Int :=
  match arg with
  | none => dflt
  | some 0 => dflt
  | some v => v

/-- Embedding of `CustomerFeedbackPipeline.extract_themes`: resolve
`n_themes`, pick the text column, and call the external
`get_themes_by_bank` (module `src/pipeline/text_analysis.py`, not in
the repository sources, passed as parameter `extractor`) — with no
validation of the resolved count. -/
def extract_themes (extractor : DataFrame → String → Int → ThemeMap)
    (nArg : Option Int) (st : PipelineState) : PipelineState × ThemeMap :=
  let n := resolveNThemes nArg st.n_themes
  let th := extractor st.df_processed (textColOf st.df_processed) n
  ({ st with themes := th }, th)

/-- First-match lookup in the theme dictionary. -/
def lookupThemes : ThemeMap → Cell → List (List String)
  | [], _ => []
  | p :: ts, b => if p.1 = b then p.2 else lookupThemes ts b

/-- The dictionary read `self.themes.get(bank, [])`: a null bank cell
never matches a key (`groupby` never produces a NaN group key). -/
def themesGet (themes : ThemeMap) (bank : Cell) : List (List String) :=
  if bank = Cell.null then [] else lookupThemes themes bank

/-- The row function `pick_theme_for_row` of `attach_primary_theme`:
the group's first theme's first five keywords joined with `", "`, or
null when the group has no themes. -/
def pick_theme_for_row (themes : ThemeMap) (r : Row) : Cell :=
  let bank := getCell r "bank_name"
  match themesGet themes bank with
  | [] => Cell.null
  | t0 :: _ => Cell.str (String.intercalate ", " (t0.take 5))

/-- Embedding of `CustomerFeedbackPipeline.attach_primary_theme`:
write the `identified_theme` column row-wise from the theme
mapping. -/
def attach_primary_theme (st : PipelineState) : PipelineState × DataFrame :=
  let d := setCol st.df_processed "identified_theme" (pick_theme_for_row st.themes)
  ({ st with df_processed := d }, d)

/-! ### The aggregate summary
(`aggregate_sentiment_by_bank_rating`, a pandas
`groupby(['bank_name','rating']).agg(...)`) -/

/-- Numeric reading of a cell, for means and comparisons. -/
def cellNum : Cell → Option ℚ
  | Cell.int n => some (n : ℚ)
  | Cell.rat q => some q
  | _ => none

/-- Tie-breaking rank of the cell constructors, for the total order
used when sorting group keys. -/
def cellRank : Cell → Nat
  | Cell.null => 0
  | Cell.int _ => 1
  | Cell.rat _ => 2
  | Cell.str _ => 3

/-- A total comparison on cells modelling the sorted group keys of
pandas `groupby` over the homogeneous key columns that occur here:
numbers by value, strings lexicographically. -/
def cellLe (a b : Cell) : Bool :=
  match cellNum a, cellNum b with
  | some x, some y =>
    if x = y then Nat.ble (cellRank a) (cellRank b) else decide (x ≤ y)
  | _, _ =>
    match a, b with
    | Cell.str s, Cell.str t => decide (s < t) || s == t
    | _, _ => Nat.ble (cellRank a) (cellRank b)

/-- Lexicographic comparison of (bank_name, rating) key pairs. -/
def pairLe (a b : Cell × Cell) : Bool :=
  if a.1 = b.1 then cellLe a.2 b.2 else cellLe a.1 b.1

/-- Ordered insertion for the key sort. -/
def insertLe {α : Type} (le : α → α → Bool) (a : α) : List α → List α
  | [] => [a]
  | b :: l => if le a b then a :: b :: l else b :: insertLe le a l

/-- Insertion sort by a boolean comparison. -/
def sortLe {α : Type} (le : α → α → Bool) (l : List α) : List α :=
  l.foldr (insertLe le) []

/-- The (bank_name, rating) grouping key of a row. -/
def keyOf (r : Row) : Cell × Cell := (getCell r "bank_name", getCell r "rating")

/-- Validity of a group key: pandas `groupby` drops groups whose key
contains NaN. -/
def validKeyB (k : Cell × Cell) : Bool :=
  !(k.1 == Cell.null) && !(k.2 == Cell.null)

/-- The distinct valid group keys of a frame in sorted order, as
pandas `groupby(sort=True)` enumerates them. -/
def groupKeys (df : DataFrame) : List (Cell × Cell) :=
  sortLe pairLe (((df.rows.map keyOf).filter validKeyB).dedup)

/-- The rows of one group. -/
def groupRows (df : DataFrame) (k : Cell × Cell) : List Row :=
  df.rows.filter (fun r => keyOf r == k)

/-- Pandas `mean` of the sentiment scores of a group: the mean of the
non-null numeric values, NaN when there are none. -/
def meanScore (rs : List Row) : Cell :=
  let vals := rs.filterMap (fun r => cellNum (getCell r "sentiment_score"))
  match vals with
  | [] => Cell.null
  | _ => Cell.rat (vals.sum / (vals.length : ℚ))

/-- Pandas `count` of the `review_text` column of a group: the number
of non-null entries (not the number of rows). -/
def textCount (rs : List Row) : Nat :=
  (rs.filter (fun r => !(getCell r "review_text" == Cell.null))).length

/-- One summary row, after `reset_index` and the rename of
`review_text` to `count`. -/
def aggRow (df : DataFrame) (k : Cell × Cell) : Row :=
  [("bank_name", k.1), ("rating", k.2),
   ("sentiment_score", meanScore (groupRows df k)),
   ("count", Cell.int (textCount (groupRows df k)))]

/-- Embedding of `aggregate_sentiment_by_bank_rating`:
`df.groupby(['bank_name','rating']).agg({'sentiment_score': 'mean',
'review_text': 'count'}).reset_index().rename(...)`. -/
def aggregate_sentiment_by_bank_rating (df : DataFrame) : DataFrame :=
  { cols := ["bank_name", "rating", "sentiment_score", "count"],
    rows := (groupKeys df).map (aggRow df) }

/-- The method as the pipeline sees it: it reads `self.df_processed`
and returns a fresh summary frame; the method body contains no
assignment to any attribute, so the state is returned unchanged. -/
def aggregate_method (st : PipelineState) : PipelineState × DataFrame :=
  (st, aggregate_sentiment_by_bank_rating st.df_processed)

/-! ### Persistence and the run sequence -/

/-- The artifacts `save_outputs` writes: the annotated frame, the
theme mapping, the aggregate summary, and the run metrics (total
reviews, coverage, bank list).  File writing itself is an external
collaborator. -/
structure Artifacts where
  reviews_csv : DataFrame
  themes_json : ThemeMap
  summary_csv : DataFrame
  total_reviews : Nat
  coverage : ℚ
  banks : List Cell
deriving DecidableEq

/-- Embedding of `save_outputs` as the artifact record it persists. -/
def save_outputs (st : PipelineState) : Artifacts :=
  { reviews_csv := st.df_processed,
    themes_json := st.themes,
    summary_csv := aggregate_sentiment_by_bank_rating st.df_processed,
    total_reviews := st.df_processed.rows.length,
    coverage := evaluate_sentiment_coverage st.df_processed "sentiment_score",
    banks := st.themes.map (fun p => p.1) }

/-- The five state transitions of the pipeline contract. -/
inductive Step where
  | loaded : Step
  | sentimentScored : Step
  | themed : Step
  | themeAttached : Step
  | persisted : Step
deriving DecidableEq

/-- Whether an `Except` value is a success. -/
def isOkE {ε α : Type} : Except ε α → Bool
  | Except.ok _ => true
  | Except.error _ => false

/-- Embedding of `CustomerFeedbackPipeline.run`: load, score, theme,
attach, persist, in the source's order; the trace records the
transitions that completed.  A coverage failure in `compute_sentiment`
propagates, so only the load transition completes. -/
def run (fileExists : Bool) (csv : DataFrame) (pick : Nat → SampleChoice)
    (preproc : DataFrame → Option DataFrame) (scorerB : DataFrame → DataFrame)
    (extractor : DataFrame → String → Int → ThemeMap) (nArg : Option Int)
    (st0 : PipelineState) : List Step × Except String (PipelineState × Artifacts) :=
  let st1 := (load_data fileExists csv pick st0).1
  match compute_sentiment preproc scorerB st1 with
  | Except.error e => ([Step.loaded], Except.error e)
  | Except.ok (st2, _) =>
    let st3 := (extract_themes extractor nArg st2).1
    let st4 := (attach_primary_theme st3).1
    let a := save_outputs st4
    ([Step.loaded, Step.sentimentScored, Step.themed, Step.themeAttached, Step.persisted],
     Except.ok (st4, a))

/-! ### Concrete fixtures used by example theorems -/

/-- A two-row frame with the single group (BankA, 5) in which one row
has a null `review_text`. -/
def dfPairFixture : DataFrame :=
  { cols := ["bank_name", "rating", "sentiment_score", "review_text"],
    rows := [[("bank_name", Cell.str "BankA"), ("rating", Cell.int 5),
              ("sentiment_score", Cell.rat (1/2)), ("review_text", Cell.str "ok")],
             [("bank_name", Cell.str "BankA"), ("rating", Cell.int 5),
              ("sentiment_score", Cell.rat (7/10)), ("review_text", Cell.null)]] }

/-- A row of the Scenario D fixture. -/
def scenarioDRow (txt : String) (score : ℚ) : Row :=
  [("bank_name", Cell.str "BankA"), ("rating", Cell.int 5),
   ("sentiment_score", Cell.rat score), ("review_text", Cell.str txt)]

/-- The spec's Scenario D fixture: ten reviews of group (BankA, 5)
whose scores average 0.6, all with non-null text. -/
def dfScenarioD : DataFrame :=
  { cols := ["bank_name", "rating", "sentiment_score", "review_text"],
    rows := [scenarioDRow "t1" (1/2), scenarioDRow "t2" (7/10),
             scenarioDRow "t3" (1/2), scenarioDRow "t4" (7/10),
             scenarioDRow "t5" (1/2), scenarioDRow "t6" (7/10),
             scenarioDRow "t7" (1/2), scenarioDRow "t8" (7/10),
             scenarioDRow "t9" (1/2), scenarioDRow "t10" (7/10)] }

/-! ## Helper lemmas -/

theorem mem_cols_ensureCols_of_mem (cs : List String) (df : DataFrame) (c : String)
    (h : c ∈ df.cols) : c ∈ (ensureCols df cs).cols := by
  induction cs generalizing df with
  | nil => exact h
  | cons d cs ih =>
    unfold ensureCols
    by_cases hd : d ∈ df.cols
    · rw [if_pos hd]
      exact ih df h
    · rw [if_neg hd]
      exact ih _ (by simp [addNullCol, h])

theorem mem_cols_ensureCols (cs : List String) (df : DataFrame) (c : String)
    (h : c ∈ cs) : c ∈ (ensureCols df cs).cols := by
  induction cs generalizing df with
  | nil => cases h
  | cons d cs ih =>
    unfold ensureCols
    rcases List.mem_cons.mp h with rfl | hc
    · by_cases hd : c ∈ df.cols
      · rw [if_pos hd]
        exact mem_cols_ensureCols_of_mem cs df c hd
      · rw [if_neg hd]
        exact mem_cols_ensureCols_of_mem cs _ c (by simp [addNullCol])
    · by_cases hd : d ∈ df.cols
      · rw [if_pos hd]
        exact ih df hc
      · rw [if_neg hd]
        exact ih _ hc

theorem rows_length_ensureCols (cs : List String) (df : DataFrame) :
    (ensureCols df cs).rows.length = df.rows.length := by
  induction cs generalizing df with
  | nil => rfl
  | cons d cs ih =>
    unfold ensureCols
    by_cases hd : d ∈ df.cols
    · rw [if_pos hd]
      exact ih df
    · rw [if_neg hd]
      rw [ih]
      simp [addNullCol]

theorem getCell_map_replace (c : String) (v : Cell) (r : Row)
    (h : r.any (fun p => p.1 == c) = true) :
    getCell (r.map (fun p => if p.1 == c then (c, v) else p)) c = v := by
  induction r with
  | nil => simp at h
  | cons p t ih =>
    by_cases hp : p.1 == c
    · simp only [List.map_cons, if_pos hp]
      simp [getCell]
    · simp only [List.map_cons, if_neg hp]
      have hpc : ¬(p.1 = c) := by simpa using hp
      simp only [getCell, if_neg hpc]
      apply ih
      simpa [hp] using h

theorem getCell_append_single (c : String) (v : Cell) (r : Row)
    (h : r.any (fun p => p.1 == c) = false) :
    getCell (r ++ [(c, v)]) c = v := by
  induction r with
  | nil => simp [getCell]
  | cons p t ih =>
    have hp : (p.1 == c) = false := by
      by_contra hx
      simp [List.any_cons, eq_true_of_ne_false hx] at h
    have hpc : ¬(p.1 = c) := by simpa using hp
    simp only [List.cons_append, getCell, if_neg hpc]
    apply ih
    simpa [hp] using h

theorem getCell_setRowCell (r : Row) (c : String) (v : Cell) :
    getCell (setRowCell r c v) c = v := by
  unfold setRowCell
  by_cases h : r.any (fun p => p.1 == c) = true
  · rw [if_pos h]
    exact getCell_map_replace c v r h
  · rw [if_neg h]
    refine getCell_append_single c v r ?_
    simp only [Bool.not_eq_true] at h
    exact h

/-! ## Claims -/

/-- C10: `evaluate_sentiment_coverage` is total and never divides by
zero: on a frame with zero rows, or one whose score column is absent,
it returns exactly 0. -/
theorem coverage_zero_on_empty_or_missing (df : DataFrame) (col : String)
    (h : df.rows.length = 0 ∨ col ∉ df.cols) :
    evaluate_sentiment_coverage df col = 0 := by
  unfold evaluate_sentiment_coverage
  rcases h with h | h
  · simp [h]
  · simp [h]

/-- Witness for C10: the empty frame that nonetheless has the score
column yields coverage 0. -/
theorem coverage_zero_on_empty_or_missing_witness :
    evaluate_sentiment_coverage ⟨["sentiment_score"], []⟩ "sentiment_score" = 0 :=
  coverage_zero_on_empty_or_missing ⟨["sentiment_score"], []⟩ "sentiment_score" (Or.inl rfl)

/-- C1: after scoring inside `compute_sentiment`, coverage below 0.9
makes the method raise a hard failure whose message carries the
measured coverage value, and coverage at least 0.9 makes it return the
scored frame normally. -/
theorem compute_sentiment_gate (preproc : DataFrame → Option DataFrame)
    (scorerB : DataFrame → DataFrame) (st : PipelineState) :
    (evaluate_sentiment_coverage (scorerB (preprocStep preproc st.df)) "sentiment_score" <
        (9 : ℚ)/10 →
      compute_sentiment preproc scorerB st =
        Except.error ("Sentiment coverage below required threshold: " ++
          formatPct2 (evaluate_sentiment_coverage (scorerB (preprocStep preproc st.df))
            "sentiment_score"))) ∧
    ((9 : ℚ)/10 ≤
        evaluate_sentiment_coverage (scorerB (preprocStep preproc st.df)) "sentiment_score" →
      ∃ st2 : PipelineState,
        compute_sentiment preproc scorerB st =
          Except.ok (st2, scorerB (preprocStep preproc st.df))) := by
  unfold compute_sentiment
  constructor
  · intro h
    rw [if_neg (not_le.mpr h)]
  · intro h
    rw [if_pos h]
    exact ⟨_, rfl⟩

/-- Witness for C1: an empty frame has no score column, so coverage is
0 and the gate raises with the measured value in the message. -/
theorem compute_sentiment_gate_witness :
    compute_sentiment (fun d => some d) (fun d => d)
        ⟨⟨[], []⟩, ⟨[], []⟩, [], 5⟩ =
      Except.error ("Sentiment coverage below required threshold: " ++
        formatPct2 (evaluate_sentiment_coverage
          ((fun d => d) (preprocStep (fun d => some d) (⟨[], []⟩ : DataFrame)))
          "sentiment_score")) :=
  (compute_sentiment_gate (fun d => some d) (fun d => d) ⟨⟨[], []⟩, ⟨[], []⟩, [], 5⟩).1
    (by norm_num [evaluate_sentiment_coverage, preprocStep, setCol])

/-- C8: computing the aggregate summary is a read-only projection: the
pipeline state, its working frame included, is returned unchanged, and
running the method again on the returned state yields the same
summary. -/
theorem aggregate_method_read_only (st : PipelineState) :
    (aggregate_method st).1 = st ∧
    (aggregate_method st).1.df_processed.rows = st.df_processed.rows ∧
    (aggregate_method st).1.df_processed.cols = st.df_processed.cols ∧
    (aggregate_method ((aggregate_method st).1)).2 = (aggregate_method st).2 :=
  ⟨rfl, rfl, rfl, rfl⟩

/-- C4 counterexample: the cited cleaner maps the spec's Scenario A
input to itself — it performs no lower-casing, URL removal or
punctuation stripping — so the claimed output `"login failed again"`
is not produced. -/
theorem clean_review_text_counterexample :
    clean_review_text (some "Login FAILED!! again http://x.co") =
      "Login FAILED!! again http://x.co" ∧
    clean_review_text (some "Login FAILED!! again http://x.co") ≠ "login failed again" := by
  constructor
  · decide
  · decide

/-- C4 amended: `clean_review_text` only collapses whitespace runs to
single spaces and trims; null or empty input yields the empty string;
the Scenario A input, being already single-spaced, maps to itself. -/
theorem clean_review_text_amended :
    clean_review_text none = "" ∧
    clean_review_text (some "") = "" ∧
    clean_review_text (some "Login FAILED!! again http://x.co") =
      "Login FAILED!! again http://x.co" ∧
    clean_review_text (some "  Login\tFAILED!!\n again   http://x.co ") =
      "Login FAILED!! again http://x.co" := by
  refine ⟨rfl, by decide, by decide, by decide⟩

/-- C3 counterexample: supplying the invalid `n_themes = 0` to
`extract_themes` is not rejected: the falsy value is silently replaced
by the configured default (5 here) and the topic extractor is invoked
with it, as the marker extractor records. -/
theorem extract_themes_counterexample :
    (extract_themes (fun _ _ n => [(Cell.str "fit-invoked", [[toString n]])]) (some 0)
        ⟨⟨[], []⟩, ⟨[], []⟩, [], 5⟩).2 =
      [(Cell.str "fit-invoked", [["5"]])] := by
  decide

/-- C3 amended: the pipeline performs no pre-flight validation of
`n_themes`: `extract_themes` always invokes the topic extractor; a
supplied 0 is silently replaced by the configured default (so it is
positive whenever the default is), and any other supplied value,
negative ones included, is forwarded unchanged. -/
theorem extract_themes_no_validation (extractor : DataFrame → String → Int → ThemeMap)
    (nArg : Option Int) (st : PipelineState) :
    ∃ n : Int, (extract_themes extractor nArg st).2 =
        extractor st.df_processed (textColOf st.df_processed) n ∧
      (nArg = some 0 → n = st.n_themes) ∧
      (∀ v : Int, nArg = some v → v ≠ 0 → n = v) ∧
      (nArg = none → n = st.n_themes) := by
  refine ⟨resolveNThemes nArg st.n_themes, rfl, ?_, ?_, ?_⟩
  · intro h
    subst h
    rfl
  · intro v hv hne
    subst hv
    match v, hne with
    | Int.ofNat (n + 1), _ => rfl
    | Int.negSucc n, _ => rfl
    | Int.ofNat 0, hne => exact absurd rfl hne
  · intro h
    subst h
    rfl

/-- Witness for C3's amended claim: a negative `n_themes` of -2
reaches the extractor unchanged. -/
theorem extract_themes_no_validation_witness :
    ∃ n : Int, (extract_themes (fun _ _ n => [(Cell.str "fit-invoked", [[toString n]])])
        (some (-2)) ⟨⟨[], []⟩, ⟨[], []⟩, [], 5⟩).2 =
        (fun (_ : DataFrame) (_ : String) (n : Int) =>
          [(Cell.str "fit-invoked", [[toString n]])])
          (⟨[], []⟩ : DataFrame) (textColOf ⟨[], []⟩) n ∧
      (some (-2) = some (0 : Int) → n = 5) ∧
      (∀ v : Int, some (-2) = some v → v ≠ 0 → n = v) ∧
      (some (-2) = (none : Option Int) → n = 5) :=
  extract_themes_no_validation (fun _ _ n => [(Cell.str "fit-invoked", [[toString n]])])
    (some (-2)) ⟨⟨[], []⟩, ⟨[], []⟩, [], 5⟩

/-- C6: when the configured file is absent, `load_data` falls back to
a 500-row synthetic frame instead of failing, and in every case the
frame it returns has the `review_text`, `rating` and `bank_name`
columns. -/
theorem load_data_fallback_and_columns (fileExists : Bool) (csv : DataFrame)
    (pick : Nat → SampleChoice) (st : PipelineState) :
    ("review_text" ∈ (load_data fileExists csv pick st).2.cols ∧
     "rating" ∈ (load_data fileExists csv pick st).2.cols ∧
     "bank_name" ∈ (load_data fileExists csv pick st).2.cols) ∧
    (fileExists = false → (load_data fileExists csv pick st).2.rows.length = 500) := by
  constructor
  · exact ⟨mem_cols_ensureCols _ _ _ (by simp), mem_cols_ensureCols _ _ _ (by simp),
      mem_cols_ensureCols _ _ _ (by simp)⟩
  · intro h
    subst h
    show (ensureCols (if (false : Bool) then csv else generate_sample_reviews 500 pick)
      ["review_text", "rating", "bank_name"]).rows.length = 500
    rw [rows_length_ensureCols]
    simp [generate_sample_reviews]

/-- Witness for C6: with an absent file the loaded frame has exactly
500 rows. -/
theorem load_data_fallback_witness :
    (load_data false ⟨[], []⟩ (fun _ => ⟨"", 0, 0, 0, 0⟩)
      ⟨⟨[], []⟩, ⟨[], []⟩, [], 5⟩).2.rows.length = 500 :=
  (load_data_fallback_and_columns false ⟨[], []⟩ (fun _ => ⟨"", 0, 0, 0, 0⟩)
    ⟨⟨[], []⟩, ⟨[], []⟩, [], 5⟩).2 rfl

/-- C9: a full run performs the transitions in exactly the order
loaded, sentiment-scored, themed, theme-attached, persisted; when the
coverage gate fails, only the load transition has completed, so theme
extraction never runs before sentiment scoring has passed its
check. -/
theorem run_transition_order (fileExists : Bool) (csv : DataFrame)
    (pick : Nat → SampleChoice) (preproc : DataFrame → Option DataFrame)
    (scorerB : DataFrame → DataFrame) (extractor : DataFrame → String → Int → ThemeMap)
    (nArg : Option Int) (st0 : PipelineState) :
    (isOkE (run fileExists csv pick preproc scorerB extractor nArg st0).2 = true →
      (run fileExists csv pick preproc scorerB extractor nArg st0).1 =
        [Step.loaded, Step.sentimentScored, Step.themed, Step.themeAttached,
         Step.persisted]) ∧
    (isOkE (run fileExists csv pick preproc scorerB extractor nArg st0).2 = false →
      (run fileExists csv pick preproc scorerB extractor nArg st0).1 = [Step.loaded] ∧
      Step.themed ∉ (run fileExists csv pick preproc scorerB extractor nArg st0).1) := by
  unfold run
  rcases hcs : compute_sentiment preproc scorerB (load_data fileExists csv pick st0).1
    with e | p
  · simp [hcs, isOkE]
  · obtain ⟨st2, d⟩ := p
    simp [hcs, isOkE]

/-- Witness for C9: a run on a fully scored one-row frame succeeds and
its trace is exactly the five transitions in order. -/
theorem run_transition_order_witness :
    (run true ⟨["review_text", "sentiment_score"],
        [[("review_text", Cell.str "t"), ("sentiment_score", Cell.rat 1)]]⟩
      (fun _ => ⟨"", 0, 0, 0, 0⟩) (fun d => some d) (fun d => d) (fun _ _ _ => [])
      none ⟨⟨[], []⟩, ⟨[], []⟩, [], 5⟩).1 =
      [Step.loaded, Step.sentimentScored, Step.themed, Step.themeAttached,
       Step.persisted] :=
  (run_transition_order true ⟨["review_text", "sentiment_score"],
      [[("review_text", Cell.str "t"), ("sentiment_score", Cell.rat 1)]]⟩
    (fun _ => ⟨"", 0, 0, 0, 0⟩) (fun d => some d) (fun d => d) (fun _ _ _ => [])
    none ⟨⟨[], []⟩, ⟨[], []⟩, [], 5⟩).1
    (by simp +decide [run, load_data, ensureCols, addNullCol, compute_sentiment,
      preprocStep, evaluate_sentiment_coverage, countNonNull, isOkE, getCell,
      show ((9 : ℚ)/10 ≤ 1) by norm_num])

/-- C2: `attach_primary_theme` gives every row an `identified_theme`
cell holding the first five keywords of its group's first theme joined
with `", "`, and null whenever the group's theme list is empty or the
group is absent from the mapping. -/
theorem attach_primary_theme_spec (st : PipelineState) (i : Nat) (r0 : Row)
    (h : st.df_processed.rows.get? i = some r0) :
    ∃ r1 : Row, ((attach_primary_theme st).2).rows.get? i = some r1 ∧
      getCell r1 "identified_theme" =
        (match themesGet st.themes (getCell r0 "bank_name") with
         | [] => Cell.null
         | t0 :: _ => Cell.str (String.intercalate ", " (t0.take 5))) ∧
      (themesGet st.themes (getCell r0 "bank_name") = [] →
        getCell r1 "identified_theme" = Cell.null) := by
  refine ⟨setRowCell r0 "identified_theme" (pick_theme_for_row st.themes r0), ?_, ?_, ?_⟩
  · show (setCol st.df_processed "identified_theme"
      (pick_theme_for_row st.themes)).rows.get? i = _
    rw [List.get?_eq_getElem?] at h ⊢
    simp [setCol, List.getElem?_map, h]
  · rw [getCell_setRowCell]
    rfl
  · intro he
    rw [getCell_setRowCell]
    simp [pick_theme_for_row, he]

/-- Witness for C2: a two-row frame where one bank has a six-keyword
first theme and the other bank is absent from the mapping. -/
theorem attach_primary_theme_spec_witness :
    ∃ r1 : Row, ((attach_primary_theme
        ⟨⟨[], []⟩,
         ⟨["bank_name"], [[("bank_name", Cell.str "CBE")],
                          [("bank_name", Cell.str "Absent")]]⟩,
         [(Cell.str "CBE", [["a", "b", "c", "d", "e", "f"], ["x"]])],
         5⟩).2).rows.get? 0 = some r1 ∧
      getCell r1 "identified_theme" =
        (match themesGet [(Cell.str "CBE", [["a", "b", "c", "d", "e", "f"], ["x"]])]
            (getCell [("bank_name", Cell.str "CBE")] "bank_name") with
         | [] => Cell.null
         | t0 :: _ => Cell.str (String.intercalate ", " (t0.take 5))) ∧
      (themesGet [(Cell.str "CBE", [["a", "b", "c", "d", "e", "f"], ["x"]])]
          (getCell [("bank_name", Cell.str "CBE")] "bank_name") = [] →
        getCell r1 "identified_theme" = Cell.null) :=
  attach_primary_theme_spec
    ⟨⟨[], []⟩,
     ⟨["bank_name"], [[("bank_name", Cell.str "CBE")],
                      [("bank_name", Cell.str "Absent")]]⟩,
     [(Cell.str "CBE", [["a", "b", "c", "d", "e", "f"], ["x"]])],
     5⟩ 0 [("bank_name", Cell.str "CBE")] rfl

/-! ## Idempotence of the text cleaner -/

theorem squeezeAux_false_cons_ws {d : Char} (t : List Char) (hd : isWs d = true) :
    squeezeAux false (d :: t) = ' ' :: squeezeAux true t := by
  simp [squeezeAux, hd]

theorem squeezeAux_true_cons_ws {d : Char} (t : List Char) (hd : isWs d = true) :
    squeezeAux true (d :: t) = squeezeAux true t := by
  simp [squeezeAux, hd]

theorem squeezeAux_cons_not_ws (b : Bool) {d : Char} (t : List Char) (hd : isWs d = false) :
    squeezeAux b (d :: t) = d :: squeezeAux false t := by
  simp [squeezeAux, hd]

theorem allSp_squeezeAux (b : Bool) (l : List Char) : allSp (squeezeAux b l) := by
  induction l generalizing b with
  | nil => intro c hc; simp [squeezeAux] at hc
  | cons d t ih =>
    cases hd : isWs d with
    | true =>
      cases b with
      | true =>
        rw [squeezeAux_true_cons_ws t hd]
        exact ih true
      | false =>
        rw [squeezeAux_false_cons_ws t hd]
        intro c hc hw
        rcases List.mem_cons.mp hc with rfl | hc
        · rfl
        · exact ih true c hc hw
    | false =>
      rw [squeezeAux_cons_not_ws b t hd]
      intro c hc hw
      rcases List.mem_cons.mp hc with rfl | hc
      · rw [hd] at hw
        cases hw
      · exact ih false c hc hw

theorem squeezeAux_true_head : ∀ (l : List Char) (c : Char),
    (squeezeAux true l).head? = some c → isWs c = false := by
  intro l
  induction l with
  | nil => intro c h; simp [squeezeAux] at h
  | cons d t ih =>
    intro c h
    cases hd : isWs d with
    | true =>
      rw [squeezeAux_true_cons_ws t hd] at h
      exact ih c h
    | false =>
      rw [squeezeAux_cons_not_ws true t hd] at h
      simp at h
      rw [← h]
      exact hd

theorem chain_squeezeAux (b : Bool) (l : List Char) :
    List.Chain' noTwo (squeezeAux b l) := by
  induction l generalizing b with
  | nil => simp [squeezeAux]
  | cons d t ih =>
    cases hd : isWs d with
    | true =>
      cases b with
      | true =>
        rw [squeezeAux_true_cons_ws t hd]
        exact ih true
      | false =>
        rw [squeezeAux_false_cons_ws t hd]
        refine List.chain'_cons'.mpr ⟨?_, ih true⟩
        intro y hy
        intro hcontra
        have := squeezeAux_true_head t y (Option.mem_def.mp hy)
        rw [this] at hcontra
        exact absurd hcontra.2 (by simp)
    | false =>
      rw [squeezeAux_cons_not_ws b t hd]
      refine List.chain'_cons'.mpr ⟨?_, ih false⟩
      intro y hy hcontra
      rw [hd] at hcontra
      exact absurd hcontra.1 (by simp)

theorem mem_of_mem_dropWhile {p : Char → Bool} :
    ∀ {l : List Char} {x : Char}, x ∈ l.dropWhile p → x ∈ l := by
  intro l
  induction l with
  | nil => intro x h; exact h
  | cons a t ih =>
    intro x h
    rw [List.dropWhile_cons] at h
    by_cases ha : p a = true
    · rw [if_pos ha] at h
      exact List.mem_cons_of_mem a (ih h)
    · rw [if_neg ha] at h
      exact h

theorem mem_of_mem_dropTrailWs :
    ∀ {l : List Char} {x : Char}, x ∈ dropTrailWs l → x ∈ l := by
  intro l
  induction l with
  | nil => intro x h; exact h
  | cons c t ih =>
    intro x h
    unfold dropTrailWs at h
    rcases hr : dropTrailWs t with _ | ⟨d, r⟩ <;> rw [hr] at h
    · by_cases hc : isWs c = true
      · rw [if_pos hc] at h
        simp at h
      · rw [if_neg hc] at h
        simp at h
        simp [h]
    · rcases List.mem_cons.mp h with rfl | h2
      · exact List.mem_cons_self _ _
      · exact List.mem_cons_of_mem c (ih (hr ▸ h2))

theorem chain_dropWhile {R : Char → Char → Prop} {p : Char → Bool} :
    ∀ {l : List Char}, List.Chain' R l → List.Chain' R (l.dropWhile p) := by
  intro l
  induction l with
  | nil => intro h; exact h
  | cons a t ih =>
    intro h
    rw [List.dropWhile_cons]
    by_cases ha : p a = true
    · rw [if_pos ha]
      exact ih h.tail
    · rw [if_neg ha]
      exact h

theorem dropTrailWs_head {l : List Char} {x : Char}
    (h : (dropTrailWs l).head? = some x) : l.head? = some x := by
  cases l with
  | nil => simp [dropTrailWs] at h
  | cons c t =>
    unfold dropTrailWs at h
    rcases hr : dropTrailWs t with _ | ⟨d, r⟩ <;> rw [hr] at h
    · by_cases hc : isWs c = true
      · rw [if_pos hc] at h
        cases h
      · rw [if_neg hc] at h
        simpa using h
    · simpa using h

theorem chain_dropTrailWs {R : Char → Char → Prop} :
    ∀ {l : List Char}, List.Chain' R l → List.Chain' R (dropTrailWs l) := by
  intro l
  induction l with
  | nil => intro h; exact h
  | cons c t ih =>
    intro h
    unfold dropTrailWs
    rcases hr : dropTrailWs t with _ | ⟨d, r⟩
    · by_cases hc : isWs c = true
      · rw [if_pos hc]
        exact List.chain'_nil
      · rw [if_neg hc]
        exact List.chain'_singleton c
    · refine List.chain'_cons'.mpr ⟨?_, ?_⟩
      · intro y hy
        have hd : t.head? = some d := dropTrailWs_head (by simp [hr])
        have h1 := (List.chain'_cons'.mp h).1
        have hyd : d = y := by simpa using hy
        subst hyd
        exact h1 d (Option.mem_def.mpr hd)
      · rw [← hr]
        exact ih h.tail

theorem dropWhile_head_false {p : Char → Bool} :
    ∀ {l : List Char} {x : Char}, (l.dropWhile p).head? = some x → p x = false := by
  intro l
  induction l with
  | nil => intro x h; simp at h
  | cons a t ih =>
    intro x h
    rw [List.dropWhile_cons] at h
    by_cases ha : p a = true
    · rw [if_pos ha] at h
      exact ih h
    · rw [if_neg ha] at h
      simp at h
      rw [← h]
      cases hpa : p a with
      | true => exact absurd hpa ha
      | false => rfl

theorem dropTrailWs_last : ∀ {l : List Char} {x : Char},
    (dropTrailWs l).getLast? = some x → isWs x = false := by
  intro l
  induction l with
  | nil => intro x h; simp [dropTrailWs] at h
  | cons c t ih =>
    intro x h
    unfold dropTrailWs at h
    rcases hr : dropTrailWs t with _ | ⟨d, r⟩ <;> rw [hr] at h
    · by_cases hc : isWs c = true
      · rw [if_pos hc] at h
        simp at h
      · rw [if_neg hc] at h
        simp at h
        rw [← h]
        cases hic : isWs c with
        | true => exact absurd hic hc
        | false => rfl
    · rw [List.getLast?_cons_cons] at h
      rw [← hr] at h
      exact ih h

theorem squeezeAux_fix : ∀ (l : List Char), allSp l → List.Chain' noTwo l →
    squeezeAux false l = l ∧
    ((∀ c, l.head? = some c → isWs c = false) → squeezeAux true l = l) := by
  intro l
  induction l with
  | nil => intro _ _; exact ⟨rfl, fun _ => rfl⟩
  | cons d t ih =>
    intro hall hch
    have hallt : allSp t := fun c hc hw => hall c (List.mem_cons_of_mem d hc) hw
    obtain ⟨ihf, iht⟩ := ih hallt hch.tail
    by_cases hd : isWs d = true
    · have hd' : d = ' ' := hall d (List.mem_cons_self d t) hd
      have htt : squeezeAux true t = t := by
        apply iht
        intro c hc
        have h1 := (List.chain'_cons'.mp hch).1 c (Option.mem_def.mpr hc)
        cases hic : isWs c with
        | true => exact absurd ⟨hd, hic⟩ h1
        | false => rfl
      constructor
      · rw [squeezeAux_false_cons_ws t hd, htt, hd']
      · intro hh
        exact absurd (hh d rfl) (by rw [hd]; simp)
    · have hd0 : isWs d = false := by
        cases hid : isWs d with
        | true => exact absurd hid hd
        | false => rfl
      constructor
      · rw [squeezeAux_cons_not_ws false t hd0, ihf]
      · intro _
        rw [squeezeAux_cons_not_ws true t hd0, ihf]

theorem dropWhile_fix {p : Char → Bool} {l : List Char}
    (h : ∀ c, l.head? = some c → p c = false) : l.dropWhile p = l := by
  cases l with
  | nil => rfl
  | cons a t =>
    rw [List.dropWhile_cons, if_neg]
    simp [h a rfl]

theorem dropTrailWs_fix : ∀ {l : List Char},
    (∀ x, l.getLast? = some x → isWs x = false) → dropTrailWs l = l := by
  intro l
  induction l with
  | nil => intro _; rfl
  | cons c t ih =>
    intro h
    cases t with
    | nil =>
      have hc : isWs c = false := h c rfl
      unfold dropTrailWs
      rw [show dropTrailWs ([] : List Char) = [] from rfl]
      rw [if_neg (by simp [hc])]
    | cons d r =>
      have ht : dropTrailWs (d :: r) = d :: r := by
        apply ih
        intro x hx
        exact h x (by rw [List.getLast?_cons_cons]; exact hx)
      unfold dropTrailWs
      rw [ht]

theorem cleanCore_idem (l : List Char) : cleanCore (cleanCore l) = cleanCore l := by
  have hall : allSp (cleanCore l) := by
    intro c hc hw
    exact allSp_squeezeAux false l c (mem_of_mem_dropWhile (mem_of_mem_dropTrailWs hc)) hw
  have hch : List.Chain' noTwo (cleanCore l) :=
    chain_dropTrailWs (chain_dropWhile (chain_squeezeAux false l))
  have hhead : ∀ c, (cleanCore l).head? = some c → isWs c = false := by
    intro c hc
    exact dropWhile_head_false (dropTrailWs_head hc)
  have hlast : ∀ x, (cleanCore l).getLast? = some x → isWs x = false := by
    intro x hx
    exact dropTrailWs_last hx
  show dropTrailWs ((squeezeAux false (cleanCore l)).dropWhile isWs) = cleanCore l
  rw [(squeezeAux_fix (cleanCore l) hall hch).1]
  rw [dropWhile_fix hhead]
  exact dropTrailWs_fix hlast

/-- C5: the text cleaner is idempotent: for every input string,
cleaning a second time returns the first result unchanged. -/
theorem clean_review_text_idempotent (s : String) :
    clean_review_text (some (clean_review_text (some s))) = clean_review_text (some s) := by
  by_cases hs : s = ""
  · subst hs
    rfl
  · have h1 : clean_review_text (some s) = String.mk (cleanCore s.data) := by
      simp [clean_review_text, hs]
    rw [h1]
    by_cases ht : String.mk (cleanCore s.data) = ""
    · rw [ht]
      rfl
    · have h2 : clean_review_text (some (String.mk (cleanCore s.data))) =
          String.mk (cleanCore (String.mk (cleanCore s.data)).data) := by
        simp [clean_review_text, ht]
      rw [h2]
      show String.mk (cleanCore (cleanCore s.data)) = String.mk (cleanCore s.data)
      rw [cleanCore_idem]

/-! ## The aggregate summary -/

theorem insertLe_perm {α : Type} (le : α → α → Bool) (a : α) :
    ∀ (l : List α), List.Perm (insertLe le a l) (a :: l) := by
  intro l
  induction l with
  | nil => exact List.Perm.refl _
  | cons b t ih =>
    unfold insertLe
    by_cases h : le a b = true
    · rw [if_pos h]
    · rw [if_neg h]
      exact List.Perm.trans (List.Perm.cons b ih) (List.Perm.swap a b t)

theorem sortLe_perm {α : Type} (le : α → α → Bool) :
    ∀ (l : List α), List.Perm (sortLe le l) l := by
  intro l
  induction l with
  | nil => exact List.Perm.refl _
  | cons a t ih =>
    show List.Perm (insertLe le a (sortLe le t)) (a :: t)
    exact List.Perm.trans (insertLe_perm le a (sortLe le t)) (List.Perm.cons a ih)

theorem filter_map_comm {α β : Type} (f : α → β) (p : β → Bool) :
    ∀ (l : List α), (l.map f).filter p = (l.filter (fun x => p (f x))).map f := by
  intro l
  induction l with
  | nil => rfl
  | cons a t ih =>
    simp only [List.map_cons, List.filter_cons]
    by_cases h : p (f a) = true
    · rw [if_pos h, if_pos h, List.map_cons, ih]
    · rw [if_neg h, if_neg h, ih]

theorem filter_eq_nil_of_not_mem {α : Type} [BEq α] [LawfulBEq α] {a : α} :
    ∀ {l : List α}, a ∉ l → l.filter (fun x => x == a) = [] := by
  intro l
  induction l with
  | nil => intro _; rfl
  | cons b t ih =>
    intro h
    rw [List.filter_cons]
    have hba : (b == a) = false := by
      simp only [beq_eq_false_iff_ne]
      intro hba
      exact h (hba ▸ List.mem_cons_self b t)
    rw [if_neg (by simp [hba])]
    exact ih (fun hm => h (List.mem_cons_of_mem b hm))

theorem nodup_filter_eq_single {α : Type} [BEq α] [LawfulBEq α] :
    ∀ {l : List α} {a : α}, l.Nodup → a ∈ l →
      (l.filter (fun x => x == a)).length = 1 := by
  intro l
  induction l with
  | nil => intro a _ h; cases h
  | cons b t ih =>
    intro a hnd hmem
    rw [List.filter_cons]
    rcases List.mem_cons.mp hmem with rfl | hmem2
    · rw [if_pos (by simp)]
      have hnotin : a ∉ t := (List.nodup_cons.mp hnd).1
      rw [filter_eq_nil_of_not_mem hnotin]
      rfl
    · have hba : (b == a) = false := by
        simp only [beq_eq_false_iff_ne]
        intro hba
        subst hba
        exact (List.nodup_cons.mp hnd).1 hmem2
      rw [if_neg (by simp [hba])]
      exact ih (List.nodup_cons.mp hnd).2 hmem2

theorem groupKeys_nodup (df : DataFrame) : (groupKeys df).Nodup :=
  ((sortLe_perm pairLe _).nodup_iff).mpr (List.nodup_dedup _)

theorem mem_groupKeys {df : DataFrame} {k : Cell × Cell} :
    k ∈ groupKeys df ↔ (validKeyB k = true ∧ k ∈ df.rows.map keyOf) := by
  unfold groupKeys
  rw [(sortLe_perm pairLe _).mem_iff, List.mem_dedup, List.mem_filter]
  tauto

theorem keyOf_aggRow (df : DataFrame) (k : Cell × Cell) : keyOf (aggRow df k) = k := by
  simp [keyOf, aggRow, getCell]

theorem getCell_aggRow_score (df : DataFrame) (k : Cell × Cell) :
    getCell (aggRow df k) "sentiment_score" = meanScore (groupRows df k) := by
  simp [aggRow, getCell]

theorem getCell_aggRow_count (df : DataFrame) (k : Cell × Cell) :
    getCell (aggRow df k) "count" = Cell.int (textCount (groupRows df k)) := by
  simp [aggRow, getCell]

/-- C7 counterexample: a group of two reviews, one with a null
`review_text`, gets summary count 1 — the count of non-null
`review_text` entries — not its review count 2, refuting the claim
that the summary row holds the review count of the group. -/
theorem aggregate_summary_counterexample :
    (aggregate_sentiment_by_bank_rating dfPairFixture).rows.map
        (fun row => getCell row "count") = [Cell.int 1] ∧
    dfPairFixture.rows.length = 2 ∧
    (dfPairFixture.rows.filter
        (fun row => keyOf row == (Cell.str "BankA", Cell.int 5))).length = 2 := by
  refine ⟨?_, rfl, by decide⟩
  simp +decide [aggregate_sentiment_by_bank_rating, groupKeys, groupRows, keyOf, aggRow,
    dfPairFixture, getCell, sortLe, insertLe, validKeyB, textCount, meanScore, cellNum]

/-- C7 amended: the summary has exactly one row per (bank_name,
rating) pair present in the frame with both components non-null, and
that row carries the mean of the group's non-null scores and the count
of the group's non-null `review_text` entries (its review count
whenever every review has text); every summary row conversely comes
from such a pair. -/
theorem aggregate_summary_spec (df : DataFrame) :
    (∀ row ∈ (aggregate_sentiment_by_bank_rating df).rows,
       validKeyB (keyOf row) = true ∧ keyOf row ∈ df.rows.map keyOf) ∧
    (∀ b r : Cell, b ≠ Cell.null → r ≠ Cell.null → (b, r) ∈ df.rows.map keyOf →
       ((aggregate_sentiment_by_bank_rating df).rows.filter
           (fun row => keyOf row == (b, r))).length = 1 ∧
       (∀ row ∈ (aggregate_sentiment_by_bank_rating df).rows, keyOf row = (b, r) →
          getCell row "sentiment_score" = meanScore (groupRows df (b, r)) ∧
          getCell row "count" = Cell.int (textCount (groupRows df (b, r))))) := by
  constructor
  · intro row hrow
    simp only [aggregate_sentiment_by_bank_rating, List.mem_map] at hrow
    obtain ⟨k, hk, rfl⟩ := hrow
    rw [keyOf_aggRow]
    exact mem_groupKeys.mp hk
  · intro b r hb hr hmem
    have hkmem : (b, r) ∈ groupKeys df :=
      mem_groupKeys.mpr ⟨by simp [validKeyB, hb, hr], hmem⟩
    constructor
    · show ((List.map (aggRow df) (groupKeys df)).filter
        (fun row => keyOf row == (b, r))).length = 1
      rw [filter_map_comm, List.length_map]
      rw [List.filter_congr (fun k' _ => by rw [keyOf_aggRow])]
      exact nodup_filter_eq_single (groupKeys_nodup df) hkmem
    · intro row hrow hkey
      simp only [aggregate_sentiment_by_bank_rating, List.mem_map] at hrow
      obtain ⟨k, hk, rfl⟩ := hrow
      rw [keyOf_aggRow] at hkey
      subst hkey
      exact ⟨getCell_aggRow_score df _, getCell_aggRow_count df _⟩

/-- Witness for C7's amended claim at the spec's Scenario D fixture:
the pair (BankA, 5) is present with both components non-null, so the
summary has exactly one matching row carrying the group's mean and
non-null-text count. -/
theorem aggregate_summary_spec_witness :
    ((aggregate_sentiment_by_bank_rating dfScenarioD).rows.filter
        (fun row => keyOf row == (Cell.str "BankA", Cell.int 5))).length = 1 ∧
    (∀ row ∈ (aggregate_sentiment_by_bank_rating dfScenarioD).rows,
       keyOf row = (Cell.str "BankA", Cell.int 5) →
       getCell row "sentiment_score" =
         meanScore (groupRows dfScenarioD (Cell.str "BankA", Cell.int 5)) ∧
       getCell row "count" =
         Cell.int (textCount (groupRows dfScenarioD (Cell.str "BankA", Cell.int 5)))) :=
  (aggregate_summary_spec dfScenarioD).2 (Cell.str "BankA") (Cell.int 5)
    (by decide) (by decide) (by decide)

end FeedbackPipeline
